import Mathlib

/-!
Verification of the SyllabusValidator requirement-matching engine.

This file is a shallow embedding of the matching engine:
* the deterministic keyword matcher `analyzeGenEdRequirements` together with
  its helper `keywordPatternMatch` and the static requirement catalog
  (file `server/utils/genEdAnalyzer.ts`, the version exporting
  `genEdRequirements`);
* the semantic batch matcher (`server/utils/openaiAnalyzer.ts`):
  batch splitting, per-batch result processing with the override
  annotations, and the fit-ranking reshaping of `determineRequirementFits`;
* the orchestration and course-name resolution logic of the analysis routes
  (`server/routes.ts` and its multi-file sibling).

Strings are modelled as `List Char`; `String.toLowerCase` is modelled by a
character-wise `Char.toLower` (the two agree on ASCII, which covers the whole
catalog), and the JavaScript float comparisons are modelled by the exact
rational comparisons they implement at the list sizes that occur (noted at
each definition).  External completion-service calls are modelled as oracle
arguments of type `Except Unit _`: `.error` is a call that throws or returns
unparsable output, `.ok` carries the parsed response.
-/

namespace SyllabusValidator

/-! ### Character-list string primitives -/

/-- Boolean test that `pat` is a leading segment of `l`. -/
def leadsB : List Char → List Char → Bool
  | [], _ => true
  | _ :: _, [] => false
  | a :: as, b :: bs => a == b && leadsB as bs

/-- Models JavaScript `text.includes(pat)`: contiguous-substring search. -/
def containsSub (text pat : List Char) : Bool :=
  match text with
  | [] => pat.isEmpty
  | _ :: rest => leadsB pat text || containsSub rest pat

/-- Left-to-right scan counting non-overlapping occurrences of `pat`; `skip`
is the number of characters of the current match still to be passed over
before a new match may start. -/
def countOccurAux (pat : List Char) (skip : Nat) : List Char → Nat
  | [] => 0
  | c :: rest =>
    match skip with
    | k + 1 => countOccurAux pat k rest
    | 0 =>
      if leadsB pat (c :: rest) && !pat.isEmpty then
        1 + countOccurAux pat (pat.length - 1) rest
      else
        countOccurAux pat 0 rest

/-- Models counting the matches of a global regex built from the plain word
`pat` over `text` (`text.match(new RegExp(pat, "gi")).length`): leftmost,
non-overlapping occurrences. -/
def countOccur (pat : List Char) (text : List Char) : Nat :=
  countOccurAux pat 0 text

/-- Maximal runs of non-whitespace characters; models the non-empty tokens of
JavaScript `s.split(/\s+/)` (the possible empty edge tokens of the JS split
have length 0 and are removed by the length filter at the only use site). -/
def splitWordsAux (cur : List Char) : List Char → List (List Char)
  | [] => if cur.isEmpty then [] else [cur.reverse]
  | c :: rest =>
    if c.isWhitespace then
      if cur.isEmpty then splitWordsAux [] rest
      else cur.reverse :: splitWordsAux [] rest
    else splitWordsAux (c :: cur) rest

def splitWords (cs : List Char) : List (List Char) := splitWordsAux [] cs

/-- Models `syllabusText.toLowerCase()` viewed as a character list. -/
def normalize (s : String) : List Char := s.data.map Char.toLower

/-! ### The deterministic matcher (`genEdAnalyzer.ts`) -/

structure GenEdRequirement where
  name : String
  description : String
  slos : List String
  keywords : List String
  requiredElements : List String
deriving DecidableEq

structure ApprovedRequirement where
  name : String
  matchingRequirements : List String
  matchingSLOs : List Nat
deriving DecidableEq

structure RejectedRequirement where
  name : String
  missingRequirements : List String
  missingSLOs : List Nat
deriving DecidableEq

/-- Models `keywordPatternMatch(text, pattern)` from `genEdAnalyzer.ts`: split the
pattern into words, keep those longer than 3 characters, and succeed when at
least 70% of them occur in the text.  The JS float test
`matching.length / keywords.length >= 0.7` is modelled by the exact
`7 * keywords.length ≤ 10 * matching.length`; the two agree because no
fraction of small naturals lies inside the rounding gap of `0.7`. -/
def keywordPatternMatch (text pat : List Char) : Bool :=
  let keywords := (splitWords pat).filter (fun k => decide (3 < k.length))
  let matching := keywords.filter (fun k => containsSub text k)
  decide (0 < keywords.length) && decide (7 * keywords.length ≤ 10 * matching.length)

/-- The presence test applied to each required element and each SLO:
`normalizedText.includes(elementLower) || keywordPatternMatch(normalizedText, elementLower)`. -/
def elementPresent (normText pat : List Char) : Bool :=
  containsSub normText pat || keywordPatternMatch normText pat

/-- Models `Math.ceil(n * 0.6)`, i.e. `⌈3n/5⌉` in exact arithmetic; the float
product rounds to the same integer ceiling at every list size in the catalog
(lengths 3, 4, 5). -/
def ceilThreshold (n : Nat) : Nat := (3 * n + 4) / 5

/-- The `slos.forEach((slo, index) => ...)` loop: returns the `matchingSLOs`
and `missingSLOs` index lists (1-based, offset by `idx`). -/
def sloSplit (normText : List Char) (slos : List String) (idx : Nat) :
    List Nat × List Nat :=
  match slos with
  | [] => ([], [])
  | slo :: rest =>
    let p := sloSplit normText rest (idx + 1)
    if elementPresent normText (normalize slo) then ((idx + 1) :: p.1, p.2)
    else (p.1, (idx + 1) :: p.2)

/-- The fixed creative-discipline vocabulary of the "Creativity and Making"
special case. -/
def creativeContentIndicators : List String :=
  ["creative writing", "theater", "design", "visual art", "studio", "workshop",
   "portfolio", "exhibition", "performance", "artistic", "sculpture",
   "painting", "drawing", "film", "photography", "dance", "music composition",
   "creative project"]

/-- Models `creativeContentScore`: total occurrence count of all indicators in the
normalized text. -/
def creativeContentScore (normText : List Char) : Nat :=
  (creativeContentIndicators.map (fun ind => countOccur ind.data normText)).sum

/-- The missing-requirement string pushed by the "Creativity and Making"
force-reject branch. -/
def cmOverrideMessage : String :=
  "More than half of course content must be dedicated to creative activities"

/-- The body of the per-requirement loop of `analyzeGenEdRequirements`:
produces either an approved or a rejected entry for one requirement. -/
def analyzeRequirement (normText : List Char) (req : GenEdRequirement) :
    ApprovedRequirement ⊕ RejectedRequirement :=
  let matchingReqs :=
    req.requiredElements.filter (fun e => elementPresent normText (normalize e))
  let slosPair := sloSplit normText req.slos 0
  if req.name == "Creativity and Making" && decide (creativeContentScore normText < 10) then
    Sum.inr { name := req.name
              missingRequirements := [cmOverrideMessage]
              missingSLOs := slosPair.2 }
  else if decide (ceilThreshold req.requiredElements.length ≤ matchingReqs.length) &&
          decide (ceilThreshold req.slos.length ≤ slosPair.1.length) then
    Sum.inl { name := req.name
              matchingRequirements := matchingReqs
              matchingSLOs := slosPair.1 }
  else
    Sum.inr { name := req.name
              missingRequirements :=
                req.requiredElements.filter (fun e => !(matchingReqs.contains e))
              missingSLOs := slosPair.2 }

/-- The catalog loop of `analyzeGenEdRequirements`, pushing each requirement
onto the approved or the rejected list. -/
def analyzeList (normText : List Char) :
    List GenEdRequirement → List ApprovedRequirement × List RejectedRequirement
  | [] => ([], [])
  | req :: rest =>
    let tailRes := analyzeList normText rest
    match analyzeRequirement normText req with
    | Sum.inl a => (a :: tailRes.1, tailRes.2)
    | Sum.inr r => (tailRes.1, r :: tailRes.2)

/-- The static requirement catalog `genEdRequirements` of `genEdAnalyzer.ts`,
transcribed verbatim. -/
def genEdRequirements : List GenEdRequirement :=
  [{ name := "Quantitative Reasoning"
     description := "Students must use mathematical, statistical, and/or computational methods to analyze and solve problems involving quantitative information."
     slos := ["Interpret quantitative information.",
              "Use quantitative methods to solve problems.",
              "Develop conclusions based on quantitative analysis."]
     keywords := ["mathematical", "statistical", "computational", "quantitative", "analysis", "problem-solving", "data"]
     requiredElements := ["Mathematical or statistical methods",
                          "Quantitative problem-solving",
                          "Data analysis components",
                          "Drawing conclusions from analysis"] },
   { name := "Modern Language"
     description := "Students learn to interpret information in authentic messages and informational texts using listening, reading, and viewing strategies."
     slos := ["Interpret information in authentic messages and informational texts using listening, reading, and viewing strategies.",
              "Interact with others using culturally appropriate language and gestures.",
              "Present meaningful information, concepts and viewpoints.",
              "Compare social practices from their own culture relative to those from another culture."]
     keywords := ["language", "authentic messages", "culturally appropriate", "social practices", "foreign language", "communication"]
     requiredElements := ["Language instruction",
                          "Cultural components",
                          "Communication practice",
                          "Authentic language materials"] },
   { name := "Natural Sciences"
     description := "Students learn scientific principles and methods to understand the natural world."
     slos := ["Differentiate among facts, laws, theories, and hypotheses in the sciences.",
              "Apply scientific methods to investigate the natural world.",
              "Analyze qualitative and/or quantitative data using scientific reasoning.",
              "Evaluate claims using reliable scientific evidence."]
     keywords := ["scientific methods", "natural world", "investigation", "lab work", "hypothesis", "evidence", "data"]
     requiredElements := ["Scientific method application",
                          "Data collection and analysis",
                          "Hypothesis testing",
                          "Laboratory or field components",
                          "Evidence-based reasoning"] },
   { name := "Exploring Artistic Works"
     description := "Students evaluate and engage with artistic works in their cultural, social, and aesthetic contexts."
     slos := ["Identify elements of artistic works that convey ideas, beliefs, and values of various cultures in different historical periods.",
              "Analyze artistic works using methodologies of interpretation.",
              "Create informed interpretations of artistic works using appropriate critical vocabulary.",
              "Communicate personal reactions to artistic works within informed interpretations."]
     keywords := ["artistic", "aesthetic", "cultural context", "interpretation", "creative expression", "analysis", "evaluation"]
     requiredElements := ["Analysis of artistic works",
                          "Cultural context examination",
                          "Critical interpretation methods",
                          "Artistic expression evaluation",
                          "Critical vocabulary development"] },
   { name := "Studies in Theology and Religion"
     description := "Students engage in critical reflection on religious texts, doctrines, and practices."
     slos := ["Describe and analyze the content of religious texts and how they function in religious communities.",
              "Describe, analyze, and compare theological perspectives including Catholic perspectives.",
              "Analyze how religious communities interpret, interact with, and transform the world around them.",
              "Integrate theological, religious, and interdisciplinary perspectives to analyze experiences and issues."]
     keywords := ["theology", "religion", "Catholic", "religious texts", "doctrines", "practices", "interdisciplinary"]
     requiredElements := ["Religious text analysis",
                          "Theological perspectives comparison",
                          "Catholic tradition examination",
                          "Religious community studies",
                          "Interdisciplinary approaches"] },
   { name := "Creativity and Making"
     description := "Students develop creative thinking and making skills through iterative processes."
     slos := ["Generate multiple approaches to problems through creative thinking.",
              "Design a process for iterative creative problem-solving.",
              "Produce a creative work through an iterative, reflective process.",
              "Evaluate the way their creative work both influences and is influenced by others."]
     keywords := ["creative", "making", "iterative", "design", "reflection", "problem-solving", "innovation"]
     requiredElements := ["Creative process development",
                          "Iterative making practices",
                          "Reflective evaluation",
                          "Collaborative creation",
                          "Innovative problem-solving"] },
   { name := "Diverse American Perspectives"
     description := "Students examine diverse cultures and perspectives in the American experience."
     slos := ["Articulate the distinctive experiences and perspectives of at least one group marginalized due to racial, gender, sexual, or religious identity.",
              "Identify intersectionality, historical context, and systems of power in American society.",
              "Analyze how systemic inequality affects personal experiences and social arrangements.",
              "Evaluate how diversity and inclusion enhance society and American democracy."]
     keywords := ["diversity", "American", "perspectives", "marginalized", "intersectionality", "race", "gender", "inequality"]
     requiredElements := ["Marginalized group experiences",
                          "Systems of power analysis",
                          "Intersectionality examination",
                          "Diversity and inclusion concepts",
                          "Historical context of inequality"] },
   { name := "Global Perspectives"
     description := "Students analyze global issues and cultural diversity beyond the American experience."
     slos := ["Analyze transnational cultural, economic, or political interactions.",
              "Describe and analyze cultural diversity across societies outside the United States.",
              "Analyze the cultural, historical, and/or political dimensions of regional or global issues.",
              "Evaluate how global issues and cultural diversity affect individuals and communities."]
     keywords := ["global", "transnational", "international", "cultural diversity", "world perspectives", "cross-cultural", "global issues"]
     requiredElements := ["Non-U.S. cultural analysis",
                          "International or global issues",
                          "Cross-cultural comparison",
                          "Transnational interactions",
                          "Global diversity examination"] },
   { name := "Ethics"
     description := "Students examine ethical theories and apply ethical reasoning to complex issues."
     slos := ["Identify and explain philosophical theories of ethics.",
              "Analyze ethical dimensions of contemporary issues.",
              "Apply moral reasoning to complex situations.",
              "Articulate and defend ethical positions using philosophical reasoning."]
     keywords := ["ethics", "moral", "philosophical", "values", "reasoning", "ethical theory", "moral judgment"]
     requiredElements := ["Ethical theory examination",
                          "Moral reasoning application",
                          "Contemporary ethical issues",
                          "Philosophical analysis",
                          "Values evaluation"] },
   { name := "Writing Rich Mission Markers"
     description := "Students develop advanced writing skills through substantial discipline-specific writing."
     slos := ["Write discipline-specific texts for multiple purposes and audiences.",
              "Incorporate appropriate conventions, genre expectations, and discipline-specific vocabulary.",
              "Integrate relevant evidence and sources with proper citation.",
              "Implement a recursive writing process involving drafting, feedback, and revision."]
     keywords := ["writing", "discipline-specific", "recursive", "revision", "genres", "conventions", "citation"]
     requiredElements := ["Multiple substantial writing assignments",
                          "Discipline-specific writing conventions",
                          "Recursive writing process",
                          "Feedback and revision cycles",
                          "Source integration and citation"] },
   { name := "Social Identities Mission Marker"
     description := "Students analyze how intersections of social identities influence individual experiences and perspectives."
     slos := ["Express ways in which the intersection of social identities influence individual life experiences and perspectives.",
              "Integrate and apply course content about underrepresented cultures in interdisciplinary contexts.",
              "Articulate awareness of central historical and present diversity issues.",
              "Demonstrate knowledge of the history, customs, worldviews, and cultural markers of minority groups."]
     keywords := ["social identities", "intersection", "SOGI", "race", "ethnicity", "class", "religion", "underrepresented"]
     requiredElements := ["Intersectionality analysis",
                          "Underrepresented cultures study",
                          "Historical context of diversity issues",
                          "Minority group cultural examination",
                          "Social identity reflection"] },
   { name := "Experiential Learning for Social Justice"
     description := "Students engage in community-based experiences focused on social justice issues."
     slos := ["Apply academic knowledge and skills through community-based social justice work.",
              "Analyze societal challenges and social justice issues through experiential learning.",
              "Reflect on how community-based work shapes understanding of course material and personal values.",
              "Evaluate the relationship between experiential learning and liberal arts education."]
     keywords := ["experiential", "social justice", "community-based", "service learning", "reflection", "societal challenges", "community engagement"]
     requiredElements := ["Community-based service component",
                          "Social justice focus",
                          "Reflective practice",
                          "Academic integration with service",
                          "Structured community engagement"] }]

/-- Models `analyzeGenEdRequirements` restricted to its approved/rejected output
(course extraction is orthogonal and modelled separately at the route level):
lower-case the text once, then run the per-requirement loop over the catalog. -/
def analyzeGenEdRequirements (syllabusText : String) :
    List ApprovedRequirement × List RejectedRequirement :=
  analyzeList (normalize syllabusText) genEdRequirements

/-! ### The semantic batch matcher (`openaiAnalyzer.ts`) -/

/-- One entry of the parsed JSON response of a batch completion call.
Fields the model may omit are `Option`s; the code reads them through
`item.field || []`. -/
structure ParsedBatchItem where
  requirement : String
  status : String
  matchingElements : Option (List String)
  matchingSLOs : Option (List Nat)
  missingElements : Option (List String)
  missingSLOs : Option (List Nat)
deriving DecidableEq

def ethicsOverrideMessage : String :=
  "Course must be primarily a philosophy course taught in a philosophy department"

def mlOverrideMessage : String :=
  "Course must explicitly focus on teaching students to communicate in a non-English language"

def cmBatchOverrideMessage : String :=
  "More than 50% of the course must be dedicated to creative writing, theater, design, or visual arts"

/-- The `extendedMissingRequirements` computation of `processRequirementsBatch`:
start from `item.missingElements || []` and append each override explanation
whose marker substring is absent from the list so far. -/
def extendMissing (item : ParsedBatchItem) : List String :=
  let base := item.missingElements.getD []
  let afterEthics :=
    if (item.requirement == "Ethics" || item.requirement == "Ethical Reasoning") &&
        !(base.any (fun r => containsSub r.data "philosophy department".data)) then
      base ++ [ethicsOverrideMessage]
    else base
  let afterML :=
    if item.requirement == "Modern Language" &&
        !(afterEthics.any (fun r => containsSub r.data "non-English language".data)) then
      afterEthics ++ [mlOverrideMessage]
    else afterEthics
  if item.requirement == "Creativity and Making" &&
      !(afterML.any (fun r => containsSub r.data "more than half".data)) then
    afterML ++ [cmBatchOverrideMessage]
  else afterML

/-- The result-processing loop of `processRequirementsBatch`: each parsed item
is pushed onto the approved list when its status is `"MET"` and onto the
rejected list (with the override-extended missing list) otherwise. -/
def processItems : List ParsedBatchItem → List ApprovedRequirement × List RejectedRequirement
  | [] => ([], [])
  | item :: rest =>
    let tailRes := processItems rest
    if item.status == "MET" then
      ({ name := item.requirement
         matchingRequirements := item.matchingElements.getD []
         matchingSLOs := item.matchingSLOs.getD [] } :: tailRes.1,
       tailRes.2)
    else
      (tailRes.1,
       { name := item.requirement
         missingRequirements := extendMissing item
         missingSLOs := item.missingSLOs.getD [] } :: tailRes.2)

/-- The batching loop of `analyzeWithOpenAI`
(`for (let i = 0; i < n; i += batchSize) slice(i, i + batchSize)` with
`batchSize = 3`): consecutive slices of three requirements. -/
def sliceBatches {α : Type} : List α → List (List α)
  | [] => []
  | [a] => [[a]]
  | [a, b] => [[a, b]]
  | a :: b :: c :: rest => [a, b, c] :: sliceBatches rest

/-- The batch loop's try/catch and aggregation: a failed batch call is
skipped, a successful one has its processed results appended; later batches
are processed regardless of earlier failures. -/
def aggregateBatches (outcomes : List (Except Unit (List ParsedBatchItem))) :
    List ApprovedRequirement × List RejectedRequirement :=
  match outcomes with
  | [] => ([], [])
  | Except.error _ :: rest => aggregateBatches rest
  | Except.ok items :: rest =>
    let res := processItems items
    let tailRes := aggregateBatches rest
    (res.1 ++ tailRes.1, res.2 ++ tailRes.2)

/-! ### The fit-ranking pass (`determineRequirementFits`) -/

structure RequirementFit where
  name : String
  matchScore : Int
  matchingSLOs : List Nat
  missingSLOs : List Nat
  reasoning : String
deriving DecidableEq

structure FitResult where
  bestFit : Option RequirementFit
  potentialFits : List RequirementFit
  poorFits : List RequirementFit
deriving DecidableEq

/-- The parsed JSON of the ranking call; every bucket may be absent
(the code reads `result.bestFits || []` and so on). -/
structure RankingResponse where
  bestFits : Option (List RequirementFit)
  potentialFits : Option (List RequirementFit)
  poorFits : Option (List RequirementFit)
deriving DecidableEq

/-- The reshaping at the end of `determineRequirementFits`: the first
best-fit entry becomes `bestFit`, a second one is prepended to
`potentialFits`, further entries are dropped. -/
def reshapeRanking (resp : RankingResponse) : FitResult :=
  let bestFits := resp.bestFits.getD []
  { bestFit := bestFits.head?
    potentialFits :=
      (match bestFits with
       | _ :: b :: _ => [b]
       | _ => []) ++ resp.potentialFits.getD []
    poorFits := resp.poorFits.getD [] }

def noSLOsMessage : String :=
  "No clear Student Learning Outcomes could be identified in the syllabus."

def sloExtractionErrorMessage : String :=
  "Error extracting Student Learning Outcomes from syllabus."

/-- Models `extractSyllabusLearningOutcomes`: the completion call is an oracle whose
`ok` value is the (possibly null) message content.  The function never
throws: a failed call yields an error-placeholder string, null or trivial
content yields the no-outcomes placeholder. -/
def extractSyllabusLearningOutcomes (callOutcome : Except Unit (Option String)) : String :=
  match callOutcome with
  | Except.error _ => sloExtractionErrorMessage
  | Except.ok none => noSLOsMessage
  | Except.ok (some content) =>
    if content.trim.length < 10 then noSLOsMessage else content

def emptyFitResult : FitResult :=
  { bestFit := none, potentialFits := [], poorFits := [] }

/-- Models `determineRequirementFits`: extract the syllabus SLOs (total), feed them
to the ranking call, and reshape its parsed response; a failed or unparsable
ranking call is caught and yields the empty fit result. -/
def determineRequirementFits (extractOutcome : Except Unit (Option String))
    (rankOracle : String → Except Unit RankingResponse) : FitResult :=
  let extractedSLOs := extractSyllabusLearningOutcomes extractOutcome
  match rankOracle extractedSLOs with
  | Except.error _ => emptyFitResult
  | Except.ok resp => reshapeRanking resp

/-! ### `analyzeWithOpenAI` and the route orchestration -/

structure CourseInfo where
  name : String
  code : String
deriving DecidableEq

/-- JavaScript `a || b` on strings: the empty string is falsy. -/
def jsOrS (a b : String) : String := if a = "" then b else a

/-- Models `extractCourseInfoWithAI`: a failed call defaults to the explicit
placeholders; a parsed response has its possibly-absent fields defaulted
through `result.courseName || "Unknown Course"` and
`result.courseCode || ""`. -/
def extractCourseInfoWithAI (outcome : Except Unit (Option String × Option String)) :
    CourseInfo :=
  match outcome with
  | Except.error _ => { name := "Unknown Course", code := "" }
  | Except.ok (n, c) =>
    { name := jsOrS (n.getD "") "Unknown Course", code := jsOrS (c.getD "") "" }

structure SemanticAnalysis where
  courseName : String
  courseCode : String
  approvedRequirements : List ApprovedRequirement
  rejectedRequirements : List RejectedRequirement
  fits : FitResult
deriving DecidableEq

/-- Models `analyzeWithOpenAI` with every completion call abstracted as an oracle:
it throws (returns `.error`) exactly when the API key is missing; course
extraction, per-batch failures and ranking failures are all absorbed by the
helpers. -/
def analyzeWithOpenAI (apiKeyPresent : Bool) (catalog : List GenEdRequirement)
    (batchOracle : List GenEdRequirement → Except Unit (List ParsedBatchItem))
    (courseOutcome : Except Unit (Option String × Option String))
    (extractOutcome : Except Unit (Option String))
    (rankOracle : String → Except Unit RankingResponse) :
    Except Unit SemanticAnalysis :=
  if apiKeyPresent = false then Except.error () else
  Except.ok
    { courseName := (extractCourseInfoWithAI courseOutcome).name
      courseCode := (extractCourseInfoWithAI courseOutcome).code
      approvedRequirements := (aggregateBatches ((sliceBatches catalog).map batchOracle)).1
      rejectedRequirements := (aggregateBatches ((sliceBatches catalog).map batchOracle)).2
      fits := determineRequirementFits extractOutcome rankOracle }

structure RouteResult where
  analysisMethod : String
  approvedRequirements : List ApprovedRequirement
  rejectedRequirements : List RejectedRequirement
deriving DecidableEq

/-- The try/catch of the analysis routes: the semantic result is used and
tagged `"ai"` when the semantic matcher returns normally; when it throws the
deterministic matcher runs on the same text and the tag stays `"keyword"`. -/
def orchestrateAnalysis (text : String) (semanticOutcome : Except Unit SemanticAnalysis) :
    RouteResult :=
  match semanticOutcome with
  | Except.ok r =>
    { analysisMethod := "ai"
      approvedRequirements := r.approvedRequirements
      rejectedRequirements := r.rejectedRequirements }
  | Except.error _ =>
    { analysisMethod := "keyword"
      approvedRequirements := (analyzeGenEdRequirements text).1
      rejectedRequirements := (analyzeGenEdRequirements text).2 }

/-! ### Course name/code resolution in the routes -/

/-- Single-file route of the current `routes.ts`:
`hasUserCourseName ? req.body.courseName : (analysisResult.courseName || "Unnamed Course")`
where `hasUserCourseName` is `'courseName' in req.body`. -/
def resolveCourseNameSingle (bodyCourseName : Option String) (extractedName : String) : String :=
  match bodyCourseName with
  | some v => v
  | none => jsOrS extractedName "Unnamed Course"

def resolveCourseCodeSingle (bodyCourseCode : Option String) (extractedCode : String) : String :=
  match bodyCourseCode with
  | some v => v
  | none => jsOrS extractedCode ""

/-- Multi-file route: `fileSpecificName = req.body[key] || ""` followed by
`fileSpecificName || analysisResult.courseName || "Unnamed Course"`. -/
def resolveCourseNameMulti (bodyCourseName : Option String) (extractedName : String) : String :=
  let fileSpecificName := jsOrS (bodyCourseName.getD "") ""
  jsOrS fileSpecificName (jsOrS extractedName "Unnamed Course")

def resolveCourseCodeMulti (bodyCourseCode : Option String) (extractedCode : String) : String :=
  let fileSpecificCode := jsOrS (bodyCourseCode.getD "") ""
  jsOrS fileSpecificCode (jsOrS extractedCode "")

/-- Single-file route of the earlier `routes.ts` variant:
`req.body.courseName || analysisResult.courseName || "Unnamed Course"`
(an absent body field is `undefined`, hence falsy like the empty string). -/
def resolveCourseNameLegacy (bodyCourseName : Option String) (extractedName : String) : String :=
  jsOrS (bodyCourseName.getD "") (jsOrS extractedName "Unnamed Course")

/-! ### Concrete data used by the claim instances -/

/-- The first catalog entry ("Quantitative Reasoning"). -/
def firstRequirement : GenEdRequirement := genEdRequirements.get ⟨0, by decide⟩

/-- The "Creativity and Making" catalog entry. -/
def creativityRequirement : GenEdRequirement := genEdRequirements.get ⟨5, by decide⟩

/-- A parsed batch result mentioning one requirement name twice with opposite
statuses. -/
def dupBatchItems : List ParsedBatchItem :=
  [{ requirement := "Quantitative Reasoning", status := "MET"
     matchingElements := none, matchingSLOs := none
     missingElements := none, missingSLOs := none },
   { requirement := "Quantitative Reasoning", status := "NOT MET"
     matchingElements := none, matchingSLOs := none
     missingElements := none, missingSLOs := none }]

def fitA : RequirementFit :=
  { name := "Exploring Artistic Works", matchScore := 95, matchingSLOs := [1, 2, 3]
    missingSLOs := [4], reasoning := "Strong SLO alignment." }

def fitB : RequirementFit :=
  { name := "Creativity and Making", matchScore := 91, matchingSLOs := [1, 2]
    missingSLOs := [3, 4], reasoning := "Close second on SLO alignment." }

def rankingAB : RankingResponse :=
  { bestFits := some [fitA, fitB], potentialFits := some [], poorFits := some [] }

def okRankingA : RankingResponse :=
  { bestFits := some [fitA], potentialFits := some [], poorFits := some [] }

/-- The contribution one batch outcome makes to the aggregated result:
nothing for a failed call, the processed lists for a successful one. -/
def batchContrib (o : Except Unit (List ParsedBatchItem)) :
    List ApprovedRequirement × List RejectedRequirement :=
  match o with
  | Except.error _ => ([], [])
  | Except.ok items => processItems items

/-- The first batch of the real catalog. -/
def firstBatch : List GenEdRequirement :=
  (sliceBatches genEdRequirements).get ⟨0, by decide⟩

/-- A batch oracle that throws on the first batch of the real catalog and
returns an empty parsed result on every other batch. -/
def failFirstOracle : List GenEdRequirement → Except Unit (List ParsedBatchItem) :=
  fun b => if b = firstBatch then Except.error () else Except.ok []

/-! ### Helper lemmas: the SLO index split -/

theorem sloSplit_cons_pos (t : List Char) (s : String) (rest : List String) (i : Nat)
    (h : elementPresent t (normalize s) = true) :
    sloSplit t (s :: rest) i =
      ((i + 1) :: (sloSplit t rest (i + 1)).1, (sloSplit t rest (i + 1)).2) := by
  simp [sloSplit, h]

theorem sloSplit_cons_neg (t : List Char) (s : String) (rest : List String) (i : Nat)
    (h : elementPresent t (normalize s) = false) :
    sloSplit t (s :: rest) i =
      ((sloSplit t rest (i + 1)).1, (i + 1) :: (sloSplit t rest (i + 1)).2) := by
  simp [sloSplit, h]

theorem sloSplit_fst_length (t : List Char) (slos : List String) (i : Nat) :
    (sloSplit t slos i).1.length = slos.countP (fun s => elementPresent t (normalize s)) := by
  induction slos generalizing i with
  | nil => simp [sloSplit]
  | cons s rest ih =>
    by_cases h : elementPresent t (normalize s) = true
    · simp [sloSplit, h, ih, List.countP_cons]
    · simp [sloSplit, h, ih, List.countP_cons]

theorem sloSplit_fst_mem_bounds (t : List Char) (slos : List String) (i : Nat) :
    ∀ j ∈ (sloSplit t slos i).1, i < j ∧ j ≤ i + slos.length := by
  induction slos generalizing i with
  | nil => simp [sloSplit]
  | cons s rest ih =>
    intro j hj
    rcases Bool.eq_false_or_eq_true (elementPresent t (normalize s)) with h | h
    · rw [sloSplit_cons_pos t s rest i h] at hj
      rcases List.mem_cons.mp hj with rfl | hj2
      · simp only [List.length_cons]; omega
      · have := ih (i + 1) j hj2
        simp only [List.length_cons]; omega
    · rw [sloSplit_cons_neg t s rest i h] at hj
      have := ih (i + 1) j hj
      simp only [List.length_cons]; omega

theorem sloSplit_snd_mem_bounds (t : List Char) (slos : List String) (i : Nat) :
    ∀ j ∈ (sloSplit t slos i).2, i < j ∧ j ≤ i + slos.length := by
  induction slos generalizing i with
  | nil => simp [sloSplit]
  | cons s rest ih =>
    intro j hj
    rcases Bool.eq_false_or_eq_true (elementPresent t (normalize s)) with h | h
    · rw [sloSplit_cons_pos t s rest i h] at hj
      have := ih (i + 1) j hj
      simp only [List.length_cons]; omega
    · rw [sloSplit_cons_neg t s rest i h] at hj
      rcases List.mem_cons.mp hj with rfl | hj2
      · simp only [List.length_cons]; omega
      · have := ih (i + 1) j hj2
        simp only [List.length_cons]; omega

theorem sloSplit_fst_sorted (t : List Char) (slos : List String) (i : Nat) :
    List.Sorted (· < ·) (sloSplit t slos i).1 := by
  induction slos generalizing i with
  | nil => simp [sloSplit]
  | cons s rest ih =>
    rcases Bool.eq_false_or_eq_true (elementPresent t (normalize s)) with h | h
    · rw [sloSplit_cons_pos t s rest i h]
      refine List.sorted_cons.mpr ⟨?_, ih (i + 1)⟩
      intro b hb
      exact (sloSplit_fst_mem_bounds t rest (i + 1) b hb).1
    · rw [sloSplit_cons_neg t s rest i h]
      exact ih (i + 1)

theorem sloSplit_snd_sorted (t : List Char) (slos : List String) (i : Nat) :
    List.Sorted (· < ·) (sloSplit t slos i).2 := by
  induction slos generalizing i with
  | nil => simp [sloSplit]
  | cons s rest ih =>
    rcases Bool.eq_false_or_eq_true (elementPresent t (normalize s)) with h | h
    · rw [sloSplit_cons_pos t s rest i h]
      exact ih (i + 1)
    · rw [sloSplit_cons_neg t s rest i h]
      refine List.sorted_cons.mpr ⟨?_, ih (i + 1)⟩
      intro b hb
      exact (sloSplit_snd_mem_bounds t rest (i + 1) b hb).1

theorem sloSplit_mem_union (t : List Char) (slos : List String) (i j : Nat) :
    (j ∈ (sloSplit t slos i).1 ∨ j ∈ (sloSplit t slos i).2) ↔
      (i < j ∧ j ≤ i + slos.length) := by
  induction slos generalizing i with
  | nil =>
    simp only [sloSplit, List.not_mem_nil, or_self, List.length_nil, false_iff]
    omega
  | cons s rest ih =>
    rcases Bool.eq_false_or_eq_true (elementPresent t (normalize s)) with h | h
    · rw [sloSplit_cons_pos t s rest i h]
      simp only [List.mem_cons, List.length_cons]
      constructor
      · rintro ((rfl | hj) | hj)
        · omega
        · have := (ih (i + 1)).mp (Or.inl hj); omega
        · have := (ih (i + 1)).mp (Or.inr hj); omega
      · intro hb
        by_cases hj : j = i + 1
        · exact Or.inl (Or.inl hj)
        · rcases (ih (i + 1)).mpr (by omega) with h1 | h2
          · exact Or.inl (Or.inr h1)
          · exact Or.inr h2
    · rw [sloSplit_cons_neg t s rest i h]
      simp only [List.mem_cons, List.length_cons]
      constructor
      · rintro (hj | (rfl | hj))
        · have := (ih (i + 1)).mp (Or.inl hj); omega
        · omega
        · have := (ih (i + 1)).mp (Or.inr hj); omega
      · intro hb
        by_cases hj : j = i + 1
        · exact Or.inr (Or.inl hj)
        · rcases (ih (i + 1)).mpr (by omega) with h1 | h2
          · exact Or.inl h1
          · exact Or.inr (Or.inr h2)

theorem sloSplit_disjoint (t : List Char) (slos : List String) (i j : Nat) :
    j ∈ (sloSplit t slos i).1 → j ∉ (sloSplit t slos i).2 := by
  induction slos generalizing i with
  | nil => simp [sloSplit]
  | cons s rest ih =>
    rcases Bool.eq_false_or_eq_true (elementPresent t (normalize s)) with h | h
    · rw [sloSplit_cons_pos t s rest i h]
      intro hj
      rcases List.mem_cons.mp hj with rfl | hj2
      · intro hmem
        have := sloSplit_snd_mem_bounds t rest (i + 1) (i + 1) hmem
        omega
      · exact ih (i + 1) hj2
    · rw [sloSplit_cons_neg t s rest i h]
      intro hj
      intro hmem
      rcases List.mem_cons.mp hmem with heq | hmem2
      · subst heq
        have := sloSplit_fst_mem_bounds t rest (i + 1) (i + 1) hj
        omega
      · exact ih (i + 1) hj hmem2

/-! ### Helper lemmas: case analysis of `analyzeRequirement` -/

theorem analyzeRequirement_cm_reject (t : List Char) (req : GenEdRequirement)
    (h1 : req.name = "Creativity and Making") (h2 : creativeContentScore t < 10) :
    analyzeRequirement t req =
      Sum.inr { name := req.name
                missingRequirements := [cmOverrideMessage]
                missingSLOs := (sloSplit t req.slos 0).2 } := by
  unfold analyzeRequirement
  rw [if_pos]
  simp [h1, h2]

theorem analyzeRequirement_not_cm (t : List Char) (req : GenEdRequirement)
    (hcm : ¬(req.name = "Creativity and Making" ∧ creativeContentScore t < 10)) :
    analyzeRequirement t req =
      (if ceilThreshold req.requiredElements.length ≤
            (req.requiredElements.filter (fun e => elementPresent t (normalize e))).length ∧
          ceilThreshold req.slos.length ≤ (sloSplit t req.slos 0).1.length then
        Sum.inl
          { name := req.name
            matchingRequirements :=
              req.requiredElements.filter (fun e => elementPresent t (normalize e))
            matchingSLOs := (sloSplit t req.slos 0).1 }
      else
        Sum.inr
          { name := req.name
            missingRequirements :=
              req.requiredElements.filter (fun e =>
                !((req.requiredElements.filter
                    (fun e2 => elementPresent t (normalize e2))).contains e))
            missingSLOs := (sloSplit t req.slos 0).2 }) := by
  unfold analyzeRequirement
  rw [if_neg (by simpa using hcm)]
  by_cases h : ceilThreshold req.requiredElements.length ≤
      (req.requiredElements.filter (fun e => elementPresent t (normalize e))).length ∧
      ceilThreshold req.slos.length ≤ (sloSplit t req.slos 0).1.length
  · rw [if_pos (by simpa using h), if_pos h]
  · rw [if_neg (by simpa using h), if_neg h]

/-- The rejected-side filter against `matchingReqs.contains` coincides with
filtering by absence. -/
theorem missing_filter_eq (t : List Char) (elems : List String) :
    elems.filter (fun e =>
        !((elems.filter (fun e2 => elementPresent t (normalize e2))).contains e)) =
      elems.filter (fun e => !(elementPresent t (normalize e))) := by
  apply List.filter_congr
  intro e he
  congr 1
  rw [Bool.eq_iff_iff]
  constructor
  · intro hc
    exact (List.mem_filter.mp (List.elem_iff.mp hc)).2
  · intro hp
    exact List.elem_iff.mpr (List.mem_filter.mpr ⟨he, hp⟩)

theorem analyzeRequirement_name_inl (t : List Char) (req : GenEdRequirement)
    (a : ApprovedRequirement) (h : analyzeRequirement t req = Sum.inl a) :
    a.name = req.name := by
  by_cases hcm : req.name = "Creativity and Making" ∧ creativeContentScore t < 10
  · rw [analyzeRequirement_cm_reject t req hcm.1 hcm.2] at h
    exact absurd h (by simp)
  · rw [analyzeRequirement_not_cm t req hcm] at h
    split at h
    · rw [Sum.inl.injEq] at h
      rw [← h]
    · exact absurd h (by simp)

theorem analyzeRequirement_name_inr (t : List Char) (req : GenEdRequirement)
    (r : RejectedRequirement) (h : analyzeRequirement t req = Sum.inr r) :
    r.name = req.name := by
  by_cases hcm : req.name = "Creativity and Making" ∧ creativeContentScore t < 10
  · rw [analyzeRequirement_cm_reject t req hcm.1 hcm.2] at h
    rw [Sum.inr.injEq] at h
    rw [← h]
  · rw [analyzeRequirement_not_cm t req hcm] at h
    split at h
    · exact absurd h (by simp)
    · rw [Sum.inr.injEq] at h
      rw [← h]

theorem analyzeRequirement_inl_fields (t : List Char) (req : GenEdRequirement)
    (a : ApprovedRequirement) (h : analyzeRequirement t req = Sum.inl a) :
    a.matchingSLOs = (sloSplit t req.slos 0).1 ∧
      a.matchingRequirements =
        req.requiredElements.filter (fun e => elementPresent t (normalize e)) := by
  by_cases hcm : req.name = "Creativity and Making" ∧ creativeContentScore t < 10
  · rw [analyzeRequirement_cm_reject t req hcm.1 hcm.2] at h
    exact absurd h (by simp)
  · rw [analyzeRequirement_not_cm t req hcm] at h
    split at h
    · rw [Sum.inl.injEq] at h
      rw [← h]
      exact ⟨rfl, rfl⟩
    · exact absurd h (by simp)

theorem analyzeRequirement_inr_slos (t : List Char) (req : GenEdRequirement)
    (r : RejectedRequirement) (h : analyzeRequirement t req = Sum.inr r) :
    r.missingSLOs = (sloSplit t req.slos 0).2 := by
  by_cases hcm : req.name = "Creativity and Making" ∧ creativeContentScore t < 10
  · rw [analyzeRequirement_cm_reject t req hcm.1 hcm.2] at h
    rw [Sum.inr.injEq] at h
    rw [← h]
  · rw [analyzeRequirement_not_cm t req hcm] at h
    split at h
    · exact absurd h (by simp)
    · rw [Sum.inr.injEq] at h
      rw [← h]

theorem analyzeRequirement_isLeft_iff (t : List Char) (req : GenEdRequirement)
    (hcm : ¬(req.name = "Creativity and Making" ∧ creativeContentScore t < 10)) :
    (analyzeRequirement t req).isLeft = true ↔
      (ceilThreshold req.requiredElements.length ≤
          req.requiredElements.countP (fun e => elementPresent t (normalize e)) ∧
        ceilThreshold req.slos.length ≤
          req.slos.countP (fun s => elementPresent t (normalize s))) := by
  rw [analyzeRequirement_not_cm t req hcm]
  rw [← sloSplit_fst_length t req.slos 0]
  rw [show req.requiredElements.countP (fun e => elementPresent t (normalize e)) =
        (req.requiredElements.filter (fun e => elementPresent t (normalize e))).length from
      (List.countP_eq_length_filter _ _)]
  split
  · next hcond => simpa using hcond
  · next hcond => simpa using hcond

/-! ### Helper lemmas: catalog loop and batch-item processing -/

theorem analyzeList_fst_names (t : List Char) (cat : List GenEdRequirement) :
    (analyzeList t cat).1.map (fun a => a.name) =
      (cat.filter (fun req => (analyzeRequirement t req).isLeft)).map
        (fun req => req.name) := by
  induction cat with
  | nil => simp [analyzeList]
  | cons req rest ih =>
    cases hres : analyzeRequirement t req with
    | inl a =>
      rw [List.filter_cons_of_pos (by simp [hres])]
      simp only [analyzeList, hres, List.map_cons]
      rw [ih, analyzeRequirement_name_inl t req a hres]
    | inr r =>
      rw [List.filter_cons_of_neg (by simp [hres])]
      simp only [analyzeList, hres]
      exact ih

theorem analyzeList_snd_names (t : List Char) (cat : List GenEdRequirement) :
    (analyzeList t cat).2.map (fun r => r.name) =
      (cat.filter (fun req => (analyzeRequirement t req).isRight)).map
        (fun req => req.name) := by
  induction cat with
  | nil => simp [analyzeList]
  | cons req rest ih =>
    cases hres : analyzeRequirement t req with
    | inl a =>
      rw [List.filter_cons_of_neg (by simp [hres])]
      simp only [analyzeList, hres]
      exact ih
    | inr r =>
      rw [List.filter_cons_of_pos (by simp [hres])]
      simp only [analyzeList, hres, List.map_cons]
      rw [ih, analyzeRequirement_name_inr t req r hres]

theorem approved_names_mem (t : List Char) (cat : List GenEdRequirement)
    (req : GenEdRequirement) (hnodup : (cat.map (fun r => r.name)).Nodup)
    (hmem : req ∈ cat) :
    req.name ∈ (analyzeList t cat).1.map (fun a => a.name) ↔
      (analyzeRequirement t req).isLeft = true := by
  rw [analyzeList_fst_names]
  simp only [List.mem_map, List.mem_filter]
  constructor
  · rintro ⟨r', ⟨hr'mem, hleft⟩, hname⟩
    have heq := List.inj_on_of_nodup_map hnodup hr'mem hmem hname
    rw [← heq]
    exact hleft
  · intro h
    exact ⟨req, ⟨hmem, h⟩, rfl⟩

theorem rejected_names_mem (t : List Char) (cat : List GenEdRequirement)
    (req : GenEdRequirement) (hnodup : (cat.map (fun r => r.name)).Nodup)
    (hmem : req ∈ cat) :
    req.name ∈ (analyzeList t cat).2.map (fun r => r.name) ↔
      (analyzeRequirement t req).isRight = true := by
  rw [analyzeList_snd_names]
  simp only [List.mem_map, List.mem_filter]
  constructor
  · rintro ⟨r', ⟨hr'mem, hright⟩, hname⟩
    have heq := List.inj_on_of_nodup_map hnodup hr'mem hmem hname
    rw [← heq]
    exact hright
  · intro h
    exact ⟨req, ⟨hmem, h⟩, rfl⟩

theorem processItems_fst_names (items : List ParsedBatchItem) :
    (processItems items).1.map (fun a => a.name) =
      (items.filter (fun it => it.status == "MET")).map (fun it => it.requirement) := by
  induction items with
  | nil => simp [processItems]
  | cons it rest ih =>
    by_cases h : (it.status == "MET") = true
    · simp [processItems, h, List.filter_cons, ih]
    · simp [processItems, h, List.filter_cons, ih]

theorem processItems_snd_names (items : List ParsedBatchItem) :
    (processItems items).2.map (fun r => r.name) =
      (items.filter (fun it => !(it.status == "MET"))).map (fun it => it.requirement) := by
  induction items with
  | nil => simp [processItems]
  | cons it rest ih =>
    by_cases h : (it.status == "MET") = true
    · simp [processItems, h, List.filter_cons, ih]
    · simp [processItems, h, List.filter_cons, ih]

theorem processItems_excl (items : List ParsedBatchItem) (n : String)
    (hnodup : (items.map (fun it => it.requirement)).Nodup) :
    ¬(n ∈ (processItems items).1.map (fun a => a.name) ∧
      n ∈ (processItems items).2.map (fun r => r.name)) := by
  rw [processItems_fst_names, processItems_snd_names]
  rintro ⟨h1, h2⟩
  simp only [List.mem_map, List.mem_filter] at h1 h2
  obtain ⟨it1, ⟨hm1, hs1⟩, rfl⟩ := h1
  obtain ⟨it2, ⟨hm2, hs2⟩, hname⟩ := h2
  have heq := List.inj_on_of_nodup_map hnodup hm2 hm1 hname
  rw [heq] at hs2
  rw [hs1] at hs2
  exact absurd hs2 (by simp)

/-! ### Claim C1 -/

/-- C1 counterexample: a parsed batch result that mentions the same
requirement name once with status MET and once with status NOT MET makes the
per-batch processing place that name in both the approved and the rejected
list, refuting the claim's never-in-both-lists guarantee for arbitrary parsed
batch results. -/
theorem claim1_counterexample :
    "Quantitative Reasoning" ∈ (processItems dupBatchItems).1.map (fun a => a.name) ∧
    "Quantitative Reasoning" ∈ (processItems dupBatchItems).2.map (fun r => r.name) := by
  decide

/-- C1 (amended): for every syllabus text the deterministic matcher places
the name of every catalog requirement in exactly one of
approvedRequirements/rejectedRequirements — never both, never neither; and
the semantic matcher's per-batch processing never places a requirement name
in both lists provided the parsed batch result mentions each requirement
name at most once (one entry per requirement, as the response schema
prescribes). -/
theorem claim1_exclusivity :
    (∀ (text : String) (req : GenEdRequirement), req ∈ genEdRequirements →
        (req.name ∈ (analyzeGenEdRequirements text).1.map (fun a => a.name) ∧
          req.name ∉ (analyzeGenEdRequirements text).2.map (fun r => r.name)) ∨
        (req.name ∉ (analyzeGenEdRequirements text).1.map (fun a => a.name) ∧
          req.name ∈ (analyzeGenEdRequirements text).2.map (fun r => r.name))) ∧
    (∀ (items : List ParsedBatchItem) (n : String),
        (items.map (fun it => it.requirement)).Nodup →
        ¬(n ∈ (processItems items).1.map (fun a => a.name) ∧
          n ∈ (processItems items).2.map (fun r => r.name))) := by
  constructor
  · intro text req hmem
    have hnodup : (genEdRequirements.map (fun r => r.name)).Nodup := by decide
    have h1 := approved_names_mem (normalize text) genEdRequirements req hnodup hmem
    have h2 := rejected_names_mem (normalize text) genEdRequirements req hnodup hmem
    unfold analyzeGenEdRequirements
    cases hres : analyzeRequirement (normalize text) req with
    | inl a =>
      left
      refine ⟨h1.mpr (by simp [hres]), ?_⟩
      rw [h2]
      simp [hres]
    | inr r =>
      right
      refine ⟨?_, h2.mpr (by simp [hres])⟩
      rw [h1]
      simp [hres]
  · intro items n hnodup
    exact processItems_excl items n hnodup

/-- C1 witness: concrete instantiation of both halves of
`claim1_exclusivity`. -/
theorem claim1_witness :
    (firstRequirement ∈ genEdRequirements ∧
      ((firstRequirement.name ∈ (analyzeGenEdRequirements "").1.map (fun a => a.name) ∧
        firstRequirement.name ∉ (analyzeGenEdRequirements "").2.map (fun r => r.name)) ∨
       (firstRequirement.name ∉ (analyzeGenEdRequirements "").1.map (fun a => a.name) ∧
        firstRequirement.name ∈ (analyzeGenEdRequirements "").2.map (fun r => r.name)))) ∧
    ((([] : List ParsedBatchItem).map (fun it => it.requirement)).Nodup ∧
      ¬("x" ∈ (processItems ([] : List ParsedBatchItem)).1.map (fun a => a.name) ∧
        "x" ∈ (processItems ([] : List ParsedBatchItem)).2.map (fun r => r.name))) :=
  ⟨⟨by decide, claim1_exclusivity.1 "" firstRequirement (by decide)⟩,
   ⟨by decide, claim1_exclusivity.2 [] "x" (by decide)⟩⟩

/-! ### Claim C2 -/

/-- C2: for every syllabus text and every catalog requirement other than
"Creativity and Making" (the only one with a special override in the
deterministic matcher), the requirement is approved iff the number of
required elements judged present reaches `⌈0.6·n⌉` AND the number of SLOs
judged present reaches `⌈0.6·m⌉`, where presence is the literal-substring or
70%-of-long-words test; and the empty syllabus text yields no approvals at
all. -/
theorem claim2_threshold_rule :
    (∀ (text : String) (req : GenEdRequirement), req ∈ genEdRequirements →
        req.name ≠ "Creativity and Making" →
        ((analyzeRequirement (normalize text) req).isLeft = true ↔
          (ceilThreshold req.requiredElements.length ≤
              req.requiredElements.countP
                (fun e => elementPresent (normalize text) (normalize e)) ∧
            ceilThreshold req.slos.length ≤
              req.slos.countP
                (fun s => elementPresent (normalize text) (normalize s))))) ∧
    (analyzeGenEdRequirements "").1 = [] := by
  constructor
  · intro text req _ hname
    exact analyzeRequirement_isLeft_iff (normalize text) req (fun hc => hname hc.1)
  · decide

/-- C2 witness: the threshold characterization instantiated at the empty
text and the "Quantitative Reasoning" requirement. -/
theorem claim2_witness :
    (firstRequirement ∈ genEdRequirements ∧ firstRequirement.name ≠ "Creativity and Making") ∧
    ((analyzeRequirement (normalize "") firstRequirement).isLeft = true ↔
      (ceilThreshold firstRequirement.requiredElements.length ≤
          firstRequirement.requiredElements.countP
            (fun e => elementPresent (normalize "") (normalize e)) ∧
        ceilThreshold firstRequirement.slos.length ≤
          firstRequirement.slos.countP
            (fun s => elementPresent (normalize "") (normalize s)))) :=
  ⟨⟨by decide, by decide⟩,
   claim2_threshold_rule.1 "" firstRequirement (by decide) (by decide)⟩

/-! ### Claim C4 -/

/-- C4: in the deterministic matcher, a creative-content score of 9 or fewer
forces rejection of "Creativity and Making" regardless of the 60% thresholds,
with the 50%-content-rule explanation as the missing-requirement entry; a
score of 10 or more disables the override and leaves the decision to the
normal two-threshold rule. -/
theorem claim4_creativity_override (text : String) :
    (creativeContentScore (normalize text) < 10 →
      analyzeRequirement (normalize text) creativityRequirement =
        Sum.inr { name := creativityRequirement.name
                  missingRequirements := [cmOverrideMessage]
                  missingSLOs :=
                    (sloSplit (normalize text) creativityRequirement.slos 0).2 }) ∧
    (10 ≤ creativeContentScore (normalize text) →
      ((analyzeRequirement (normalize text) creativityRequirement).isLeft = true ↔
        (ceilThreshold creativityRequirement.requiredElements.length ≤
            creativityRequirement.requiredElements.countP
              (fun e => elementPresent (normalize text) (normalize e)) ∧
          ceilThreshold creativityRequirement.slos.length ≤
            creativityRequirement.slos.countP
              (fun s => elementPresent (normalize text) (normalize s))))) := by
  constructor
  · intro h
    exact analyzeRequirement_cm_reject (normalize text) creativityRequirement (by decide) h
  · intro h
    exact analyzeRequirement_isLeft_iff (normalize text) creativityRequirement
      (fun hc => by omega)

/-- C4 witness: the override fires on the empty text (score 0) and is
disabled on a text containing ten occurrences of "design". -/
theorem claim4_witness :
    (creativeContentScore (normalize "") < 10 ∧
      analyzeRequirement (normalize "") creativityRequirement =
        Sum.inr { name := creativityRequirement.name
                  missingRequirements := [cmOverrideMessage]
                  missingSLOs :=
                    (sloSplit (normalize "") creativityRequirement.slos 0).2 }) ∧
    (10 ≤ creativeContentScore
        (normalize "design design design design design design design design design design") ∧
      ((analyzeRequirement
            (normalize "design design design design design design design design design design")
            creativityRequirement).isLeft = true ↔
        (ceilThreshold creativityRequirement.requiredElements.length ≤
            creativityRequirement.requiredElements.countP
              (fun e =>
                elementPresent
                  (normalize "design design design design design design design design design design")
                  (normalize e)) ∧
          ceilThreshold creativityRequirement.slos.length ≤
            creativityRequirement.slos.countP
              (fun s =>
                elementPresent
                  (normalize "design design design design design design design design design design")
                  (normalize s))))) :=
  ⟨⟨by decide, (claim4_creativity_override "").1 (by decide)⟩,
   ⟨by decide,
    (claim4_creativity_override
        "design design design design design design design design design design").2 (by decide)⟩⟩

/-! ### Claim C10 -/

/-- C10: for every syllabus text and requirement, the deterministic matcher's
matchingSLOs and missingSLOs index lists are each strictly increasing,
disjoint, and together cover exactly the indices 1..len(slos); consequently
every SLO index in an approved entry's matchingSLOs or a rejected entry's
missingSLOs lies within [1, len(slos)]. -/
theorem claim10_slo_partition (text : String) (req : GenEdRequirement) (j : Nat)
    (a : ApprovedRequirement) (r : RejectedRequirement) :
    List.Sorted (· < ·) (sloSplit (normalize text) req.slos 0).1 ∧
    List.Sorted (· < ·) (sloSplit (normalize text) req.slos 0).2 ∧
    ¬(j ∈ (sloSplit (normalize text) req.slos 0).1 ∧
      j ∈ (sloSplit (normalize text) req.slos 0).2) ∧
    ((j ∈ (sloSplit (normalize text) req.slos 0).1 ∨
      j ∈ (sloSplit (normalize text) req.slos 0).2) ↔ (1 ≤ j ∧ j ≤ req.slos.length)) ∧
    (analyzeRequirement (normalize text) req = Sum.inl a → j ∈ a.matchingSLOs →
      1 ≤ j ∧ j ≤ req.slos.length) ∧
    (analyzeRequirement (normalize text) req = Sum.inr r → j ∈ r.missingSLOs →
      1 ≤ j ∧ j ≤ req.slos.length) := by
  refine ⟨sloSplit_fst_sorted _ _ _, sloSplit_snd_sorted _ _ _, ?_, ?_, ?_, ?_⟩
  · rintro ⟨h1, h2⟩
    exact sloSplit_disjoint (normalize text) req.slos 0 j h1 h2
  · rw [sloSplit_mem_union]
    omega
  · intro hres hj
    rw [(analyzeRequirement_inl_fields (normalize text) req a hres).1] at hj
    have := sloSplit_fst_mem_bounds (normalize text) req.slos 0 j hj
    omega
  · intro hres hj
    rw [analyzeRequirement_inr_slos (normalize text) req r hres] at hj
    have := sloSplit_snd_mem_bounds (normalize text) req.slos 0 j hj
    omega

/-- C10 witness: the partition facts instantiated at the empty text, the
first catalog requirement and index 1. -/
theorem claim10_witness :
    List.Sorted (· < ·) (sloSplit (normalize "") firstRequirement.slos 0).1 ∧
    List.Sorted (· < ·) (sloSplit (normalize "") firstRequirement.slos 0).2 ∧
    ¬((1 : Nat) ∈ (sloSplit (normalize "") firstRequirement.slos 0).1 ∧
      (1 : Nat) ∈ (sloSplit (normalize "") firstRequirement.slos 0).2) ∧
    (((1 : Nat) ∈ (sloSplit (normalize "") firstRequirement.slos 0).1 ∨
      (1 : Nat) ∈ (sloSplit (normalize "") firstRequirement.slos 0).2) ↔
      (1 ≤ (1 : Nat) ∧ (1 : Nat) ≤ firstRequirement.slos.length)) ∧
    (analyzeRequirement (normalize "") firstRequirement =
        Sum.inl { name := "", matchingRequirements := [], matchingSLOs := [] } →
      (1 : Nat) ∈ ApprovedRequirement.matchingSLOs
        { name := "", matchingRequirements := [], matchingSLOs := [] } →
      1 ≤ (1 : Nat) ∧ (1 : Nat) ≤ firstRequirement.slos.length) ∧
    (analyzeRequirement (normalize "") firstRequirement =
        Sum.inr { name := "", missingRequirements := [], missingSLOs := [] } →
      (1 : Nat) ∈ RejectedRequirement.missingSLOs
        { name := "", missingRequirements := [], missingSLOs := [] } →
      1 ≤ (1 : Nat) ∧ (1 : Nat) ≤ firstRequirement.slos.length) :=
  claim10_slo_partition "" firstRequirement 1
    { name := "", matchingRequirements := [], matchingSLOs := [] }
    { name := "", missingRequirements := [], missingSLOs := [] }

/-! ### Claim C3 -/

/-- C3: if the semantic matcher throws at the top level, the orchestrator's
response is tagged "keyword" and its approved/rejected lists are exactly the
deterministic matcher's output on the same syllabus text; when the semantic
path succeeds the tag is "ai". -/
theorem claim3_fallback_tagging (text : String) (sem : Except Unit SemanticAnalysis)
    (r : SemanticAnalysis) :
    (sem = Except.error () →
      (orchestrateAnalysis text sem).analysisMethod = "keyword" ∧
      (orchestrateAnalysis text sem).approvedRequirements = (analyzeGenEdRequirements text).1 ∧
      (orchestrateAnalysis text sem).rejectedRequirements = (analyzeGenEdRequirements text).2) ∧
    (sem = Except.ok r → (orchestrateAnalysis text sem).analysisMethod = "ai") := by
  constructor
  · intro h
    subst h
    exact ⟨rfl, rfl, rfl⟩
  · intro h
    subst h
    rfl

/-- C3 witness: the fallback branch at the empty text, plus the success tag
on a dummy semantic result. -/
theorem claim3_witness :
    ((Except.error () : Except Unit SemanticAnalysis) = Except.error () ∧
      ((orchestrateAnalysis "" (Except.error ())).analysisMethod = "keyword" ∧
       (orchestrateAnalysis "" (Except.error ())).approvedRequirements =
          (analyzeGenEdRequirements "").1 ∧
       (orchestrateAnalysis "" (Except.error ())).rejectedRequirements =
          (analyzeGenEdRequirements "").2)) ∧
    (orchestrateAnalysis ""
        (Except.ok { courseName := "", courseCode := "", approvedRequirements := [],
                     rejectedRequirements := [], fits := emptyFitResult })).analysisMethod =
      "ai" :=
  ⟨⟨rfl,
    (claim3_fallback_tagging "" (Except.error ())
      { courseName := "", courseCode := "", approvedRequirements := [],
        rejectedRequirements := [], fits := emptyFitResult }).1 rfl⟩,
   (claim3_fallback_tagging ""
      (Except.ok { courseName := "", courseCode := "", approvedRequirements := [],
                   rejectedRequirements := [], fits := emptyFitResult })
      { courseName := "", courseCode := "", approvedRequirements := [],
        rejectedRequirements := [], fits := emptyFitResult }).2 rfl⟩

/-! ### Claim C6 -/

/-- C6 counterexample: in the multi-file route (and the earlier single-file
route variant) an explicitly supplied empty-string courseName does not take
precedence — the matcher-extracted value wins, refuting the claim for those
requests. -/
theorem claim6_counterexample :
    resolveCourseNameMulti (some "") "Algebra" = "Algebra" ∧
    resolveCourseNameLegacy (some "") "Algebra" = "Algebra" ∧
    resolveCourseNameMulti (some "") "Algebra" ≠ "" := by
  refine ⟨rfl, rfl, by decide⟩

/-- C6 (amended): in the current single-file route a user-supplied
courseName/courseCode that is explicitly present always takes precedence,
even as an empty string; in the multi-file route and the earlier single-file
route variant only a non-empty user-supplied value takes precedence, and an
explicit empty string falls back to the extracted value (with the usual
placeholder defaulting). -/
theorem claim6_course_override (v extractedName extractedCode : String) :
    (resolveCourseNameSingle (some v) extractedName = v ∧
      resolveCourseCodeSingle (some v) extractedCode = v) ∧
    (v ≠ "" →
      (resolveCourseNameMulti (some v) extractedName = v ∧
        resolveCourseCodeMulti (some v) extractedCode = v ∧
        resolveCourseNameLegacy (some v) extractedName = v)) ∧
    (resolveCourseNameMulti (some "") extractedName = jsOrS extractedName "Unnamed Course" ∧
      resolveCourseNameLegacy (some "") extractedName = jsOrS extractedName "Unnamed Course") := by
  refine ⟨⟨rfl, rfl⟩, ?_, ⟨?_, ?_⟩⟩
  · intro hv
    refine ⟨?_, ?_, ?_⟩
    · simp [resolveCourseNameMulti, jsOrS, hv]
    · simp [resolveCourseCodeMulti, jsOrS, hv]
    · simp [resolveCourseNameLegacy, jsOrS, hv]
  · simp [resolveCourseNameMulti, jsOrS]
  · simp [resolveCourseNameLegacy, jsOrS]

/-- C6 witness: the precedence facts at a concrete non-empty user value and
concrete extracted values. -/
theorem claim6_witness :
    ((resolveCourseNameSingle (some "User Course") "Extracted" = "User Course" ∧
      resolveCourseCodeSingle (some "User Course") "EX 100" = "User Course") ∧
     ("User Course" ≠ "" →
       (resolveCourseNameMulti (some "User Course") "Extracted" = "User Course" ∧
        resolveCourseCodeMulti (some "User Course") "EX 100" = "User Course" ∧
        resolveCourseNameLegacy (some "User Course") "Extracted" = "User Course")) ∧
     (resolveCourseNameMulti (some "") "Extracted" = jsOrS "Extracted" "Unnamed Course" ∧
      resolveCourseNameLegacy (some "") "Extracted" = jsOrS "Extracted" "Unnamed Course")) :=
  claim6_course_override "User Course" "Extracted" "EX 100"

/-! ### Claim C7 -/

/-- C7: for every parsed ranking response with a non-empty bestFits array,
the returned bestFit is its first entry, and a second bestFits entry is
placed at the front of potentialFits, ahead of the response's own
potentialFits entries. -/
theorem claim7_bestfit_reshaping (resp : RankingResponse) (a b : RequirementFit)
    (rest : List RequirementFit) :
    (resp.bestFits = some (a :: rest) → (reshapeRanking resp).bestFit = some a) ∧
    (resp.bestFits = some (a :: b :: rest) →
      (reshapeRanking resp).potentialFits = b :: resp.potentialFits.getD []) := by
  constructor
  · intro h
    simp [reshapeRanking, h]
  · intro h
    simp [reshapeRanking, h]

/-- C7 witness: a ranking response with best entries A (score 95) and
B (score 91) yields bestFit = A and potentialFits starting with B. -/
theorem claim7_witness :
    (rankingAB.bestFits = some (fitA :: [fitB]) ∧
      (reshapeRanking rankingAB).bestFit = some fitA) ∧
    (rankingAB.bestFits = some (fitA :: fitB :: []) ∧
      (reshapeRanking rankingAB).potentialFits = fitB :: rankingAB.potentialFits.getD []) :=
  ⟨⟨rfl, (claim7_bestfit_reshaping rankingAB fitA fitB [fitB]).1 rfl⟩,
   ⟨rfl, (claim7_bestfit_reshaping rankingAB fitA fitB []).2 rfl⟩⟩

/-! ### Claim C8 -/

/-- C8 counterexample: when the SLO-extraction call fails but the ranking
call succeeds, `determineRequirementFits` does not return the empty fit
result: the extraction failure is absorbed into a placeholder string and the
ranking proceeds, refuting the claim that a failure of either sub-step yields
`{bestFit: undefined, potentialFits: [], poorFits: []}`. -/
theorem claim8_counterexample :
    (determineRequirementFits (Except.error ()) (fun _ => Except.ok okRankingA)).bestFit =
      some fitA ∧
    determineRequirementFits (Except.error ()) (fun _ => Except.ok okRankingA) ≠
      emptyFitResult := by
  refine ⟨rfl, by decide⟩

/-- C8 (amended): a failed or unparsable ranking call makes
`determineRequirementFits` return the empty fit result instead of throwing;
a failed SLO-extraction call is absorbed into the error-placeholder string
and the ranking call still proceeds on it; and the semantic analysis (with
its key present) incorporates whatever fit result is produced while the
orchestrator's analysisMethod stays "ai" — a ranking failure never triggers
the deterministic fallback. -/
theorem claim8_ranking_failure (extractOutcome : Except Unit (Option String))
    (rankOracle : String → Except Unit RankingResponse) (text : String)
    (catalog : List GenEdRequirement)
    (batchOracle : List GenEdRequirement → Except Unit (List ParsedBatchItem))
    (courseOutcome : Except Unit (Option String × Option String)) :
    (rankOracle (extractSyllabusLearningOutcomes extractOutcome) = Except.error () →
      determineRequirementFits extractOutcome rankOracle = emptyFitResult) ∧
    (extractOutcome = Except.error () →
      determineRequirementFits extractOutcome rankOracle =
        (match rankOracle sloExtractionErrorMessage with
         | Except.error _ => emptyFitResult
         | Except.ok resp => reshapeRanking resp)) ∧
    (orchestrateAnalysis text
        (analyzeWithOpenAI true catalog batchOracle courseOutcome extractOutcome
          rankOracle)).analysisMethod = "ai" := by
  refine ⟨?_, ?_, rfl⟩
  · intro h
    simp [determineRequirementFits, h]
  · intro h
    subst h
    rfl

/-- C8 witness: the amended facts at a concrete failing extraction call and
failing ranking call. -/
theorem claim8_witness :
    ((fun (_ : String) => (Except.error () : Except Unit RankingResponse))
        (extractSyllabusLearningOutcomes (Except.error ())) = Except.error () ∧
      determineRequirementFits (Except.error ())
          (fun _ => (Except.error () : Except Unit RankingResponse)) = emptyFitResult) ∧
    ((Except.error () : Except Unit (Option String)) = Except.error () ∧
      determineRequirementFits (Except.error ())
          (fun _ => (Except.error () : Except Unit RankingResponse)) =
        (match (fun (_ : String) => (Except.error () : Except Unit RankingResponse))
            sloExtractionErrorMessage with
         | Except.error _ => emptyFitResult
         | Except.ok resp => reshapeRanking resp)) ∧
    (orchestrateAnalysis ""
        (analyzeWithOpenAI true [] (fun _ => Except.error ()) (Except.error ())
          (Except.error ()) (fun _ => Except.error ()))).analysisMethod = "ai" :=
  ⟨⟨rfl,
    (claim8_ranking_failure (Except.error ()) (fun _ => Except.error ()) "" []
        (fun _ => Except.error ()) (Except.error ())).1 rfl⟩,
   ⟨rfl,
    (claim8_ranking_failure (Except.error ()) (fun _ => Except.error ()) "" []
        (fun _ => Except.error ()) (Except.error ())).2.1 rfl⟩,
   (claim8_ranking_failure (Except.error ()) (fun _ => Except.error ()) "" []
        (fun _ => Except.error ()) (Except.error ())).2.2⟩

/-! ### Claim C9 -/

/-- C9 counterexample: on the empty syllabus text the deterministic matcher
rejects "Creativity and Making" through the override with missingRequirements
equal to only the synthesized explanation string, even though every one of
its five requiredElements is judged not found — the override replaces the
missing-elements list instead of augmenting it. -/
theorem claim9_counterexample :
    analyzeRequirement (normalize "") creativityRequirement =
      Sum.inr { name := "Creativity and Making"
                missingRequirements := [cmOverrideMessage]
                missingSLOs := [1, 2, 3, 4] } ∧
    creativityRequirement.requiredElements.filter
        (fun e => !(elementPresent (normalize "") (normalize e))) =
      creativityRequirement.requiredElements ∧
    "Creative process development" ∉ [cmOverrideMessage] := by
  refine ⟨by decide, by decide, by decide⟩

/-- C9 (amended): in the semantic matcher every rejected entry's
missingRequirements is the parsed missingElements list extended by appending
(never replacing): each item with a non-MET status contributes a rejected
entry whose missing list is `extendMissing item`, and `extendMissing` only
appends to `item.missingElements`; in the deterministic matcher a rejection
of a requirement other than "Creativity and Making" lists exactly the
requiredElements judged not found, while a rejection through the
Creativity-and-Making override carries only the synthesized explanation
string. -/
theorem claim9_missing_requirements (item : ParsedBatchItem) (text : String)
    (req : GenEdRequirement) (r : RejectedRequirement) :
    (∃ extra, extendMissing item = item.missingElements.getD [] ++ extra) ∧
    (req.name ≠ "Creativity and Making" →
      analyzeRequirement (normalize text) req = Sum.inr r →
      r.missingRequirements =
        req.requiredElements.filter
          (fun e => !(elementPresent (normalize text) (normalize e)))) ∧
    (creativeContentScore (normalize text) < 10 →
      analyzeRequirement (normalize text) creativityRequirement =
        Sum.inr { name := creativityRequirement.name
                  missingRequirements := [cmOverrideMessage]
                  missingSLOs :=
                    (sloSplit (normalize text) creativityRequirement.slos 0).2 }) := by
  refine ⟨?_, ?_, ?_⟩
  · simp only [extendMissing]
    split_ifs <;>
      first
        | exact ⟨[], (List.append_nil _).symm⟩
        | exact ⟨_, rfl⟩
        | exact ⟨_, List.append_assoc _ _ _⟩
        | exact ⟨_, (List.append_assoc _ _ _).trans (List.append_assoc _ _ _)⟩
  · intro hname hres
    have hcm : ¬(req.name = "Creativity and Making" ∧
        creativeContentScore (normalize text) < 10) := fun hc => hname hc.1
    rw [analyzeRequirement_not_cm (normalize text) req hcm] at hres
    split at hres
    · exact absurd hres (by simp)
    · rw [Sum.inr.injEq] at hres
      rw [← hres]
      exact missing_filter_eq (normalize text) req.requiredElements
  · intro h
    exact analyzeRequirement_cm_reject (normalize text) creativityRequirement (by decide) h

/-- C9 witness: a concrete rejected Modern Language item with an empty parsed
missing list gets the explanation appended, and the deterministic facts at
the empty text and the "Quantitative Reasoning" requirement. -/
theorem claim9_witness :
    (∃ extra,
      extendMissing
          { requirement := "Modern Language", status := "NOT MET"
            matchingElements := none, matchingSLOs := none
            missingElements := some ["Language instruction"], missingSLOs := some [1, 2] } =
        (some ["Language instruction"] : Option (List String)).getD [] ++ extra) ∧
    (firstRequirement.name ≠ "Creativity and Making" ∧
      analyzeRequirement (normalize "") firstRequirement =
        Sum.inr { name := "Quantitative Reasoning"
                  missingRequirements := firstRequirement.requiredElements
                  missingSLOs := [1, 2, 3] } ∧
      RejectedRequirement.missingRequirements
          { name := "Quantitative Reasoning"
            missingRequirements := firstRequirement.requiredElements
            missingSLOs := [1, 2, 3] } =
        firstRequirement.requiredElements.filter
          (fun e => !(elementPresent (normalize "") (normalize e)))) ∧
    (creativeContentScore (normalize "") < 10 ∧
      analyzeRequirement (normalize "") creativityRequirement =
        Sum.inr { name := creativityRequirement.name
                  missingRequirements := [cmOverrideMessage]
                  missingSLOs := (sloSplit (normalize "") creativityRequirement.slos 0).2 }) :=
  ⟨(claim9_missing_requirements
      { requirement := "Modern Language", status := "NOT MET"
        matchingElements := none, matchingSLOs := none
        missingElements := some ["Language instruction"], missingSLOs := some [1, 2] }
      "" firstRequirement
      { name := "Quantitative Reasoning"
        missingRequirements := firstRequirement.requiredElements
        missingSLOs := [1, 2, 3] }).1,
   ⟨by decide, by decide,
    (claim9_missing_requirements
      { requirement := "Modern Language", status := "NOT MET"
        matchingElements := none, matchingSLOs := none
        missingElements := some ["Language instruction"], missingSLOs := some [1, 2] }
      "" firstRequirement
      { name := "Quantitative Reasoning"
        missingRequirements := firstRequirement.requiredElements
        missingSLOs := [1, 2, 3] }).2.1 (by decide) (by decide)⟩,
   ⟨by decide,
    (claim9_missing_requirements
      { requirement := "Modern Language", status := "NOT MET"
        matchingElements := none, matchingSLOs := none
        missingElements := some ["Language instruction"], missingSLOs := some [1, 2] }
      "" firstRequirement
      { name := "Quantitative Reasoning"
        missingRequirements := firstRequirement.requiredElements
        missingSLOs := [1, 2, 3] }).2.2 (by decide)⟩⟩

/-! ### Helper lemmas: batching -/

theorem sliceBatches_flatten {α : Type} : ∀ (l : List α), (sliceBatches l).flatten = l
  | [] => rfl
  | [_] => rfl
  | [_, _] => rfl
  | a :: b :: c :: rest => by
    simp only [sliceBatches, List.flatten_cons, List.cons_append, List.nil_append]
    rw [sliceBatches_flatten rest]

theorem sliceBatches_sizes {α : Type} : ∀ (l : List α), ∀ b ∈ sliceBatches l,
    0 < b.length ∧ b.length ≤ 3
  | [] => by simp [sliceBatches]
  | [_] => by simp [sliceBatches]
  | [_, _] => by simp [sliceBatches]
  | a :: b :: c :: rest => by
    intro bb hb
    rcases List.mem_cons.mp hb with rfl | h2
    · simp
    · exact sliceBatches_sizes rest bb h2

theorem sliceBatches_dropLast_full {α : Type} : ∀ (l : List α),
    ∀ b ∈ (sliceBatches l).dropLast, b.length = 3
  | [] => by simp [sliceBatches]
  | [_] => by simp [sliceBatches]
  | [_, _] => by simp [sliceBatches]
  | a :: b :: c :: rest => by
    intro bb hb
    cases hrest : sliceBatches rest with
    | nil =>
      rw [sliceBatches, hrest] at hb
      simp at hb
    | cons x xs =>
      rw [sliceBatches, hrest] at hb
      rw [List.dropLast_cons₂] at hb
      rcases List.mem_cons.mp hb with rfl | h2
      · rfl
      · rw [← hrest] at h2
        exact sliceBatches_dropLast_full rest bb h2

theorem sliceBatches_mem_sub {α : Type} : ∀ (l : List α), ∀ b ∈ sliceBatches l,
    ∀ x ∈ b, x ∈ l
  | [] => by simp [sliceBatches]
  | [_] => by simp [sliceBatches]
  | [_, _] => by simp [sliceBatches]
  | a :: b :: c :: rest => by
    intro bb hb x hx
    rcases List.mem_cons.mp hb with rfl | h2
    · simp only [List.mem_cons] at hx ⊢
      rcases hx with rfl | rfl | rfl | h
      · left; rfl
      · right; left; rfl
      · right; right; left; rfl
      · exact absurd h (by simp)
    · have := sliceBatches_mem_sub rest bb h2 x hx
      simp only [List.mem_cons]
      right; right; right
      exact this

theorem aggregateBatches_error_cons (rest : List (Except Unit (List ParsedBatchItem))) :
    aggregateBatches (Except.error () :: rest) = aggregateBatches rest := rfl

theorem aggregateBatches_ok_cons (items : List ParsedBatchItem)
    (rest : List (Except Unit (List ParsedBatchItem))) :
    aggregateBatches (Except.ok items :: rest) =
      ((processItems items).1 ++ (aggregateBatches rest).1,
       (processItems items).2 ++ (aggregateBatches rest).2) := rfl

theorem aggregateBatches_eq :
    ∀ (outcomes : List (Except Unit (List ParsedBatchItem))),
      aggregateBatches outcomes =
        ((outcomes.map (fun o => (batchContrib o).1)).flatten,
         (outcomes.map (fun o => (batchContrib o).2)).flatten)
  | [] => rfl
  | Except.error () :: rest => by
    rw [aggregateBatches_error_cons, aggregateBatches_eq rest]
    rfl
  | Except.ok items :: rest => by
    rw [aggregateBatches_ok_cons, aggregateBatches_eq rest]
    rfl

theorem aggregate_fst_mem :
    ∀ (outcomes : List (Except Unit (List ParsedBatchItem))) (nm : String),
      nm ∈ (aggregateBatches outcomes).1.map (fun a => a.name) →
      ∃ items, Except.ok items ∈ outcomes ∧
        nm ∈ (processItems items).1.map (fun a => a.name)
  | [] => by simp [aggregateBatches]
  | Except.error () :: rest => by
    intro nm h
    rw [aggregateBatches_error_cons] at h
    obtain ⟨items, hmem, hnm⟩ := aggregate_fst_mem rest nm h
    exact ⟨items, List.mem_cons.mpr (Or.inr hmem), hnm⟩
  | Except.ok items0 :: rest => by
    intro nm h
    rw [aggregateBatches_ok_cons] at h
    rw [List.map_append] at h
    rcases List.mem_append.mp h with h1 | h2
    · exact ⟨items0, List.mem_cons.mpr (Or.inl rfl), h1⟩
    · obtain ⟨items, hmem, hnm⟩ := aggregate_fst_mem rest nm h2
      exact ⟨items, List.mem_cons.mpr (Or.inr hmem), hnm⟩

theorem aggregate_snd_mem :
    ∀ (outcomes : List (Except Unit (List ParsedBatchItem))) (nm : String),
      nm ∈ (aggregateBatches outcomes).2.map (fun r => r.name) →
      ∃ items, Except.ok items ∈ outcomes ∧
        nm ∈ (processItems items).2.map (fun r => r.name)
  | [] => by simp [aggregateBatches]
  | Except.error () :: rest => by
    intro nm h
    rw [aggregateBatches_error_cons] at h
    obtain ⟨items, hmem, hnm⟩ := aggregate_snd_mem rest nm h
    exact ⟨items, List.mem_cons.mpr (Or.inr hmem), hnm⟩
  | Except.ok items0 :: rest => by
    intro nm h
    rw [aggregateBatches_ok_cons] at h
    rw [List.map_append] at h
    rcases List.mem_append.mp h with h1 | h2
    · exact ⟨items0, List.mem_cons.mpr (Or.inl rfl), h1⟩
    · obtain ⟨items, hmem, hnm⟩ := aggregate_snd_mem rest nm h2
      exact ⟨items, List.mem_cons.mpr (Or.inr hmem), hnm⟩

theorem processItems_fst_names_sub (items : List ParsedBatchItem) (nm : String)
    (h : nm ∈ (processItems items).1.map (fun a => a.name)) :
    ∃ it ∈ items, it.requirement = nm := by
  rw [processItems_fst_names] at h
  obtain ⟨it, hmem, hnm⟩ := List.mem_map.mp h
  exact ⟨it, (List.mem_filter.mp hmem).1, hnm⟩

theorem processItems_snd_names_sub (items : List ParsedBatchItem) (nm : String)
    (h : nm ∈ (processItems items).2.map (fun r => r.name)) :
    ∃ it ∈ items, it.requirement = nm := by
  rw [processItems_snd_names] at h
  obtain ⟨it, hmem, hnm⟩ := List.mem_map.mp h
  exact ⟨it, (List.mem_filter.mp hmem).1, hnm⟩

theorem sliceBatches_names_disjoint :
    ∀ (catalog : List GenEdRequirement), (catalog.map (fun r => r.name)).Nodup →
      ∀ b1 ∈ sliceBatches catalog, ∀ b2 ∈ sliceBatches catalog, b1 ≠ b2 →
      ∀ nm, nm ∈ b1.map (fun r => r.name) → nm ∉ b2.map (fun r => r.name)
  | [] => by simp [sliceBatches]
  | [a] => by
    intro _ b1 hb1 b2 hb2 hne nm h1 h2
    simp only [sliceBatches, List.mem_singleton] at hb1 hb2
    exact hne (hb1.trans hb2.symm)
  | [a, b] => by
    intro _ b1 hb1 b2 hb2 hne nm h1 h2
    simp only [sliceBatches, List.mem_singleton] at hb1 hb2
    exact hne (hb1.trans hb2.symm)
  | a :: b :: c :: rest => by
    intro hnodup b1 hb1 b2 hb2 hne nm h1 h2
    have hsub : ∀ bb ∈ sliceBatches rest, ∀ x ∈ bb.map (fun r => r.name),
        x ∈ rest.map (fun r => r.name) := by
      intro bb hbb x hx
      obtain ⟨r0, hr0, hr0x⟩ := List.mem_map.mp hx
      exact List.mem_map.mpr ⟨r0, sliceBatches_mem_sub rest bb hbb r0 hr0, hr0x⟩
    simp only [List.map_cons, List.nodup_cons] at hnodup
    have ha := hnodup.1
    have hb' := hnodup.2.1
    have hc := hnodup.2.2.1
    have hrest := hnodup.2.2.2
    rw [sliceBatches] at hb1 hb2
    rcases List.mem_cons.mp hb1 with rfl | hb1r
    · rcases List.mem_cons.mp hb2 with rfl | hb2r
      · exact hne rfl
      · have h2r := hsub b2 hb2r nm h2
        have h1' : nm = a.name ∨ nm = b.name ∨ nm = c.name := by simpa using h1
        rcases h1' with rfl | rfl | rfl
        · exact ha (List.mem_cons.mpr (Or.inr (List.mem_cons.mpr (Or.inr h2r))))
        · exact hb' (List.mem_cons.mpr (Or.inr h2r))
        · exact hc h2r
    · rcases List.mem_cons.mp hb2 with rfl | hb2r
      · have h1r := hsub b1 hb1r nm h1
        have h2' : nm = a.name ∨ nm = b.name ∨ nm = c.name := by simpa using h2
        rcases h2' with rfl | rfl | rfl
        · exact ha (List.mem_cons.mpr (Or.inr (List.mem_cons.mpr (Or.inr h1r))))
        · exact hb' (List.mem_cons.mpr (Or.inr h1r))
        · exact hc h1r
      · exact sliceBatches_names_disjoint rest hrest b1 hb1r b2 hb2r hne nm h1 h2

/-! ### Claim C5 -/

/-- C5: the semantic matcher partitions the catalog into consecutive batches
of size 3 (the last may be smaller, none is empty, and their concatenation
restores the catalog); the aggregated result is the in-order concatenation of
the per-batch contributions in which a failed batch contributes nothing while
every other batch is still processed; and a requirement of a failed batch
appears in neither output list, provided every successful batch's parsed
items name only requirements of their own batch (as the response schema
prescribes). -/
theorem claim5_batch_partition :
    (∀ {α : Type} (catalog : List α),
        (sliceBatches catalog).flatten = catalog ∧
        (∀ b ∈ sliceBatches catalog, 0 < b.length ∧ b.length ≤ 3) ∧
        (∀ b ∈ (sliceBatches catalog).dropLast, b.length = 3)) ∧
    (∀ (outcomes : List (Except Unit (List ParsedBatchItem))),
        aggregateBatches outcomes =
          ((outcomes.map (fun o => (batchContrib o).1)).flatten,
           (outcomes.map (fun o => (batchContrib o).2)).flatten)) ∧
    (∀ (catalog : List GenEdRequirement)
        (oracle : List GenEdRequirement → Except Unit (List ParsedBatchItem))
        (bk : List GenEdRequirement) (req : GenEdRequirement),
        (catalog.map (fun r => r.name)).Nodup →
        bk ∈ sliceBatches catalog →
        oracle bk = Except.error () →
        req ∈ bk →
        (∀ b ∈ sliceBatches catalog, ∀ items, oracle b = Except.ok items →
            ∀ it ∈ items, it.requirement ∈ b.map (fun r2 => r2.name)) →
        (req.name ∉
            (aggregateBatches ((sliceBatches catalog).map oracle)).1.map (fun a => a.name) ∧
          req.name ∉
            (aggregateBatches ((sliceBatches catalog).map oracle)).2.map
              (fun r2 => r2.name))) := by
  refine ⟨?_, aggregateBatches_eq, ?_⟩
  · intro α catalog
    exact ⟨sliceBatches_flatten catalog, sliceBatches_sizes catalog,
      sliceBatches_dropLast_full catalog⟩
  · intro catalog oracle bk req hnodup hbk herr hreq hconf
    have hnmbk : req.name ∈ bk.map (fun r2 => r2.name) :=
      List.mem_map.mpr ⟨req, hreq, rfl⟩
    constructor
    · intro hmem
      obtain ⟨items, hokmem, hnm⟩ :=
        aggregate_fst_mem ((sliceBatches catalog).map oracle) req.name hmem
      obtain ⟨b, hbmem, hob⟩ := List.mem_map.mp hokmem
      obtain ⟨it, hit, hitnm⟩ := processItems_fst_names_sub items req.name hnm
      have hnmb : req.name ∈ b.map (fun r2 => r2.name) := by
        rw [← hitnm]
        exact hconf b hbmem items hob it hit
      have hbne : bk ≠ b := by
        rintro rfl
        rw [hob] at herr
        cases herr
      exact sliceBatches_names_disjoint catalog hnodup bk hbk b hbmem hbne
        req.name hnmbk hnmb
    · intro hmem
      obtain ⟨items, hokmem, hnm⟩ :=
        aggregate_snd_mem ((sliceBatches catalog).map oracle) req.name hmem
      obtain ⟨b, hbmem, hob⟩ := List.mem_map.mp hokmem
      obtain ⟨it, hit, hitnm⟩ := processItems_snd_names_sub items req.name hnm
      have hnmb : req.name ∈ b.map (fun r2 => r2.name) := by
        rw [← hitnm]
        exact hconf b hbmem items hob it hit
      have hbne : bk ≠ b := by
        rintro rfl
        rw [hob] at herr
        cases herr
      exact sliceBatches_names_disjoint catalog hnodup bk hbk b hbmem hbne
        req.name hnmbk hnmb

/-- C5 witness: with the real catalog and an oracle that throws on the first
batch and returns an empty parsed result elsewhere, "Quantitative Reasoning"
appears in neither output list. -/
theorem claim5_witness :
    ((genEdRequirements.map (fun r => r.name)).Nodup ∧
      firstBatch ∈ sliceBatches genEdRequirements ∧
      failFirstOracle firstBatch = Except.error () ∧
      firstRequirement ∈ firstBatch) ∧
    (firstRequirement.name ∉
        (aggregateBatches ((sliceBatches genEdRequirements).map failFirstOracle)).1.map
          (fun a => a.name) ∧
      firstRequirement.name ∉
        (aggregateBatches ((sliceBatches genEdRequirements).map failFirstOracle)).2.map
          (fun r2 => r2.name)) :=
  ⟨⟨by decide, by decide, by simp [failFirstOracle], by decide⟩,
   claim5_batch_partition.2.2 genEdRequirements failFirstOracle firstBatch firstRequirement
     (by decide) (by decide) (by simp [failFirstOracle]) (by decide)
     (by
       intro b hb items hok it hit
       by_cases hbf : b = firstBatch
       · rw [hbf] at hok
         simp [failFirstOracle] at hok
       · simp only [failFirstOracle, if_neg hbf, Except.ok.injEq] at hok
         rw [← hok] at hit
         exact absurd hit (by simp))⟩

end SyllabusValidator
